import Mathlib

/-!
Verification development for the GitHub Issue Resolver MCP server.

The definitions below are a shallow embedding of the TypeScript sources:
  - `PlannerService` (createResolutionPlan, findRelevantFiles,
    updatePlanWithModifications) from src/services/planner.service.ts
  - `GitHubService.detectBuildSystem` from src/services/github.service.ts
  - `ImplementationService` (slugify, branch naming, install/test command
    selection) from src/services/implementation.service.ts
  - `DockerService.removeContainer` from src/services/docker.service.ts
  - the `resolve_github_issue` tool workflow from
    src/tools/resolve-github-issue.tool.ts

Strings are treated at the character-list level; JavaScript string
primitives (includes, split, trim, replace with the anchored regexes used
by the code, toLowerCase on ASCII data) are embedded as executable
character-list functions so that every definition evaluates by kernel
reduction.
-/

/-- Character-level lowercasing; mirrors `toLowerCase` on the ASCII data the
    services manipulate. -/
def strToLower (s : String) : String :=
  String.mk (s.toList.map Char.toLower)

/-- Tests whether `needle` occurs at the very start of `hay`. -/
def listLeads : List Char → List Char → Bool
  | [], _ => true
  | _ :: _, [] => false
  | a :: as, b :: bs => a == b && listLeads as bs

/-- Substring occurrence on character lists; mirrors JavaScript
    `hay.includes(needle)` (the empty needle occurs in every string). -/
def listContainsSub (hay needle : List Char) : Bool :=
  listLeads needle hay ||
    match hay with
    | [] => false
    | _ :: t => listContainsSub t needle

/-- String-level wrapper of `listContainsSub`; mirrors `hay.includes(needle)`. -/
def strIncludes (hay needle : String) : Bool :=
  listContainsSub hay.toList needle.toList

/-- Splits a character list on a single separator character; mirrors
    JavaScript `split` with a one-character separator (empty pieces kept). -/
def splitOnChar (sep : Char) : List Char → List (List Char)
  | [] => [[]]
  | c :: rest =>
    let r := splitOnChar sep rest
    if c == sep then [] :: r
    else
      match r with
      | [] => [[c]]
      | h :: t => (c :: h) :: t

/-- Removes leading and trailing whitespace; mirrors JavaScript `trim`. -/
def trimChars (l : List Char) : List Char :=
  ((l.dropWhile Char.isWhitespace).reverse.dropWhile Char.isWhitespace).reverse

/-- String-level wrapper of `trimChars`. -/
def trimStr (s : String) : String :=
  String.mk (trimChars s.toList)

/-- The suffix of `hay` that follows the first occurrence of `needle`, or
    `none` when `needle` does not occur; used to embed the section-header
    regex matches of `updatePlanWithModifications`. -/
def afterFirst (hay needle : List Char) : Option (List Char) :=
  if listLeads needle hay then some (hay.drop needle.length)
  else
    match hay with
    | [] => none
    | _ :: t => afterFirst t needle

/-- The longest segment of `hay` that precedes the first occurrence of
    `needle` (all of `hay` when `needle` is absent); embeds the lazy capture
    bounded by the lookahead `(?=NextHeader:|$)` in the section regexes. -/
def upToFirst (hay needle : List Char) : List Char :=
  if listLeads needle hay then []
  else
    match hay with
    | [] => []
    | c :: t => c :: upToFirst t needle

/-- File tree node produced by the codebase analysis: `FileStructure` in
    src/services/github.service.ts, with `type`, `path`, `name`, optional
    captured `content`, and optional `children`. -/
inductive FileNode where
  | mk (type path name : String) (content : Option String) (children : List FileNode)

/-- Projection of the `type` field of a `FileNode`. -/
def FileNode.type : FileNode → String
  | .mk t _ _ _ _ => t

/-- Projection of the `path` field of a `FileNode`. -/
def FileNode.path : FileNode → String
  | .mk _ p _ _ _ => p

/-- Projection of the `name` field of a `FileNode`. -/
def FileNode.name : FileNode → String
  | .mk _ _ n _ _ => n

/-- Projection of the `content` field of a `FileNode`. -/
def FileNode.content : FileNode → Option String
  | .mk _ _ _ c _ => c

/-- Projection of the `children` field of a `FileNode`. -/
def FileNode.children : FileNode → List FileNode
  | .mk _ _ _ _ ch => ch

/-- Resolution plan record (`ResolutionPlan` in planner.service.ts). -/
structure ResolutionPlan where
  problemSummary : String
  proposedSolution : String
  filesToModify : List String
  implementationSteps : List String
  testingStrategy : String
  successCriteria : String
deriving DecidableEq

/-- Codebase analysis fields consumed by the planner and the environment
    setup (the `codebaseAnalysis` object built in github.service.ts). -/
structure CodebaseAnalysis where
  fileStructure : List FileNode
  buildSystem : String
  mainLanguage : String

/-- Issue snapshot (`IssueInfo` in github.service.ts), restricted to the
    fields the planner and the resolve workflow read. -/
structure IssueInfo where
  owner : String
  repo : String
  issueNumber : Nat
  title : String
  body : String
  repoLanguage : String
  codebaseAnalysis : CodebaseAnalysis

/-- Name-based relevance check from `findRelevantFiles`: some dot-separated
    part of the lowercased file name occurs in the issue-words string via
    `issueWords.includes(part)`. -/
def fileNameRelevant (issueWords : String) (f : FileNode) : Bool :=
  (splitOnChar '.' (strToLower f.name).toList).any fun part =>
    listContainsSub issueWords.toList part

/-- Content-based relevance check from `findRelevantFiles`, guarded by the
    truthiness test `if (file.content)` (absent or empty content fails): some
    issue word longer than 4 characters occurs in the lowercased content. -/
def fileContentMatches (issueWords : String) : Option String → Bool
  | some content =>
    content ≠ "" &&
      (splitOnChar ' ' issueWords.toList).any fun word =>
        word.length > 4 && listContainsSub (strToLower content).toList word
  | none => false

mutual
/-- Treatment of a single node by the `searchFiles` closure inside
    `findRelevantFiles`: a `file` node is emitted when its name is relevant,
    or otherwise when its content matches; children are searched next. -/
def searchNode (issueWords : String) : FileNode → List FileNode
  | .mk ty p n cont ch =>
    (if ty == "file" then
      (if fileNameRelevant issueWords (FileNode.mk ty p n cont ch) then
        [FileNode.mk ty p n cont ch]
      else if fileContentMatches issueWords cont then
        [FileNode.mk ty p n cont ch]
      else [])
    else []) ++ searchFiles issueWords ch
termination_by structural f => f

/-- The recursive `searchFiles` walk of `findRelevantFiles`, in the order
    the imperative loop pushes results (node before its children, siblings
    in list order). -/
def searchFiles (issueWords : String) : List FileNode → List FileNode
  | [] => []
  | f :: rest => searchNode issueWords f ++ searchFiles issueWords rest
termination_by structural fs => fs
end

/-- PlannerService.findRelevantFiles: the recursive search, then the
    fallback to root-level files whose raw name contains index, main or app
    when no relevant file was found. -/
def findRelevantFiles (fileStructure : List FileNode) (issueWords : String) :
    List FileNode :=
  let relevantFiles := searchFiles issueWords fileStructure
  if relevantFiles.length = 0 then
    let commonFiles := fileStructure.filter fun f =>
      f.type == "file" &&
        (strIncludes f.name "index" || strIncludes f.name "main" ||
          strIncludes f.name "app")
    if commonFiles.length > 0 then commonFiles else []
  else relevantFiles

/-- PlannerService.createResolutionPlan: lowercased title+body drive the
    relevant-file search; all other fields are fixed text, and the
    implementation steps are a constant six-element list. -/
def createResolutionPlan (issueInfo : IssueInfo) : ResolutionPlan :=
  let issueWords := strToLower (issueInfo.title ++ " " ++ issueInfo.body)
  let fileStructure := issueInfo.codebaseAnalysis.fileStructure
  let relevantFiles := findRelevantFiles fileStructure issueWords
  { problemSummary :=
      "Issue #" ++ toString issueInfo.issueNumber ++ ": " ++ issueInfo.title
    proposedSolution := "Implement a fix based on the issue description"
    filesToModify := relevantFiles.map FileNode.path
    implementationSteps :=
      ["Understand the issue by analyzing the code",
       "Create a branch for the fix",
       "Implement necessary changes",
       "Add or update tests",
       "Verify the fix resolves the issue",
       "Create a pull request"]
    testingStrategy := "Write unit tests to verify the fix works as expected"
    successCriteria := "All tests pass and the issue is resolved" }


/-- Capture of a plan-modification section: the text after the first
    occurrence of `header`, cut at the first following occurrence of `nxt`;
    embeds `modifications.match(/Header:(.*?)(?=Next:|$)/s)` with its lazy
    capture and lookahead. `none` exactly when the header is absent. -/
def sectionBody (mods header nxt : String) : Option String :=
  match afterFirst mods.toList header.toList with
  | none => none
  | some tail => some (String.mk (upToFirst tail nxt.toList))

/-- Capture of the final plan-modification section, bounded only by the end
    of the text: embeds `modifications.match(/Success Criteria:(.*?)(?=$)/s)`. -/
def sectionBodyToEnd (mods header : String) : Option String :=
  (afterFirst mods.toList header.toList).map String.mk

/-- Line cleanup for the Files to Modify section: strips the anchored
    bullet pattern of one leading hyphen plus following whitespace, and
    nothing else (`line.replace` with the bullet regex). -/
def stripBullet : List Char → List Char
  | '-' :: rest => rest.dropWhile Char.isWhitespace
  | l => l

/-- Line cleanup for the Implementation Steps section: strips the anchored
    ordinal pattern of leading digits, a dot, and following whitespace, and
    nothing else (`line.replace` with the ordinal regex). -/
def stripOrdinal (l : List Char) : List Char :=
  let ds := l.takeWhile Char.isDigit
  if ds.isEmpty then l
  else
    match l.drop ds.length with
    | '.' :: rest => rest.dropWhile Char.isWhitespace
    | _ => l

/-- List-section parsing pipeline shared by the two list-valued fields:
    split the trimmed body into lines, clean each line with the
    field-specific strip function and trim it, drop blank lines. -/
def parseListSection (clean : List Char → List Char) (body : String) :
    List String :=
  ((splitOnChar '\n' body.toList).map fun line =>
    String.mk (trimChars (clean line))).filter fun s => s ≠ ""

/-- First modification block: the Problem Summary section, bounded by the
    Proposed Solution header, replaces `problemSummary` when present and
    nonblank. -/
def applyProblemSummaryMod (modifications : String) (p : ResolutionPlan) :
    ResolutionPlan :=
  if strIncludes modifications "Problem Summary:" then
    match sectionBody modifications "Problem Summary:" "Proposed Solution:" with
    | some body =>
      if trimStr body ≠ "" then { p with problemSummary := trimStr body } else p
    | none => p
  else p

/-- Second modification block: the Proposed Solution section, bounded by
    the Files to Modify header. -/
def applyProposedSolutionMod (modifications : String) (p : ResolutionPlan) :
    ResolutionPlan :=
  if strIncludes modifications "Proposed Solution:" then
    match sectionBody modifications "Proposed Solution:" "Files to Modify:" with
    | some body =>
      if trimStr body ≠ "" then { p with proposedSolution := trimStr body } else p
    | none => p
  else p

/-- Third modification block: the Files to Modify section, bounded by the
    Implementation Steps header, parsed line by line with the bullet strip. -/
def applyFilesMod (modifications : String) (p : ResolutionPlan) :
    ResolutionPlan :=
  if strIncludes modifications "Files to Modify:" then
    match sectionBody modifications "Files to Modify:" "Implementation Steps:" with
    | some body =>
      if trimStr body ≠ "" then
        { p with filesToModify := parseListSection stripBullet (trimStr body) }
      else p
    | none => p
  else p

/-- Fourth modification block: the Implementation Steps section, bounded by
    the Testing Strategy header, parsed line by line with the ordinal strip. -/
def applyStepsMod (modifications : String) (p : ResolutionPlan) :
    ResolutionPlan :=
  if strIncludes modifications "Implementation Steps:" then
    match sectionBody modifications "Implementation Steps:" "Testing Strategy:" with
    | some body =>
      if trimStr body ≠ "" then
        { p with implementationSteps := parseListSection stripOrdinal (trimStr body) }
      else p
    | none => p
  else p

/-- Fifth modification block: the Testing Strategy section, bounded by the
    Success Criteria header. -/
def applyTestingMod (modifications : String) (p : ResolutionPlan) :
    ResolutionPlan :=
  if strIncludes modifications "Testing Strategy:" then
    match sectionBody modifications "Testing Strategy:" "Success Criteria:" with
    | some body =>
      if trimStr body ≠ "" then { p with testingStrategy := trimStr body } else p
    | none => p
  else p

/-- Sixth modification block: the Success Criteria section, bounded only by
    the end of the patch text. -/
def applySuccessMod (modifications : String) (p : ResolutionPlan) :
    ResolutionPlan :=
  if strIncludes modifications "Success Criteria:" then
    match sectionBodyToEnd modifications "Success Criteria:" with
    | some body =>
      if trimStr body ≠ "" then { p with successCriteria := trimStr body } else p
    | none => p
  else p

/-- PlannerService.updatePlanWithModifications: the six section blocks run
    in source order over a copy of the input plan; each recognized header
    present in the patch replaces its field when the captured body is
    nonblank; text fields take the trimmed body, the two list fields run
    `parseListSection` with their own strip function (bullet for files,
    ordinal for steps). -/
def updatePlanWithModifications (originalPlan : ResolutionPlan)
    (modifications : String) : ResolutionPlan :=
  applySuccessMod modifications
    (applyTestingMod modifications
      (applyStepsMod modifications
        (applyFilesMod modifications
          (applyProposedSolutionMod modifications
            (applyProblemSummaryMod modifications originalPlan)))))

/-- ImplementationService.slugify: lowercase, collapse every maximal run of
    characters outside a-z0-9 into a single hyphen, drop one leading and one
    trailing hyphen, cap at 50 characters. `collapseRuns` carries a flag
    recording whether the current position continues a collapsed run. -/
def isSlugChar (c : Char) : Bool :=
  (c ≥ 'a' && c ≤ 'z') || (c ≥ '0' && c ≤ '9')

/-- Run-collapsing worker for `slugify`; the Boolean argument is true while
    inside a run of non-slug characters already replaced by a hyphen. -/
def collapseRuns : Bool → List Char → List Char
  | _, [] => []
  | inRun, c :: rest =>
    if isSlugChar c then c :: collapseRuns false rest
    else if inRun then collapseRuns true rest
    else '-' :: collapseRuns true rest

/-- Removes at most one leading hyphen; part of the anchored trim step. -/
def dropLeadHyphen : List Char → List Char
  | '-' :: rest => rest
  | l => l

/-- ImplementationService.slugify as a whole: the trim step removes one
    hyphen at each end (all a collapsed string can carry), then the result
    is capped at 50 characters. -/
def slugify (text : String) : String :=
  let collapsed := collapseRuns false (strToLower text).toList
  let trimmed := (dropLeadHyphen (dropLeadHyphen collapsed).reverse).reverse
  String.mk (trimmed.take 50)

/-- Working branch name built in setupDevEnvironment from the issue number
    and the slug of the issue title. -/
def branchNameFor (issueNumber : Nat) (title : String) : String :=
  "fix/issue-" ++ toString issueNumber ++ "-" ++ slugify title


/-- GitHubService.detectBuildSystem: a priority-ordered first-match rule
    list over the lowercased names of the top-level entries of the analyzed
    file structure; no recursion into children. -/
def detectBuildSystem (fileStructure : List FileNode) : String :=
  let fileNames := fileStructure.map fun f => strToLower f.name
  if fileNames.contains "package.json" then "npm"
  else if fileNames.contains "yarn.lock" then "yarn"
  else if fileNames.contains "pom.xml" then "maven"
  else if fileNames.contains "build.gradle" then "gradle"
  else if fileNames.contains "requirements.txt" || fileNames.contains "setup.py" then "pip"
  else if fileNames.contains "cargo.toml" then "cargo"
  else if fileNames.contains "gemfile" then "bundler"
  else "unknown"

/-- Membership of a lowercased file name in the top-level entries; the only
    information `detectBuildSystem` consumes. -/
def hasManifest (fileStructure : List FileNode) (s : String) : Bool :=
  (fileStructure.map fun f => strToLower f.name).contains s

/-- Every lowercased file name `detectBuildSystem` recognizes. -/
def recognizedManifests : List String :=
  ["package.json", "yarn.lock", "pom.xml", "build.gradle",
   "requirements.txt", "setup.py", "cargo.toml", "gemfile"]

/-- Install command chosen per build-system tag in
    ImplementationService.installDependencies; `none` is the default arm
    that skips installation. -/
def installCommandFor : String → Option (List String)
  | "npm" => some ["npm", "install"]
  | "yarn" => some ["yarn", "install"]
  | "pip" => some ["pip", "install", "-r", "requirements.txt"]
  | "bundler" => some ["bundle", "install"]
  | "maven" => some ["mvn", "install", "-DskipTests"]
  | "gradle" => some ["./gradlew", "build", "-x", "test"]
  | "cargo" => some ["cargo", "build"]
  | _ => none

/-- Test command chosen per build-system tag in
    ImplementationService.runTests; `none` is the default arm that skips
    tests with a synthetic success. -/
def testCommandFor : String → Option (List String)
  | "npm" => some ["npm", "test"]
  | "yarn" => some ["yarn", "test"]
  | "pip" => some ["python", "-m", "pytest"]
  | "bundler" => some ["bundle", "exec", "rake", "test"]
  | "maven" => some ["mvn", "test"]
  | "gradle" => some ["./gradlew", "test"]
  | "cargo" => some ["cargo", "test"]
  | _ => none

/-- Observable container state for DockerService.removeContainer. -/
structure ContainerState where
  running : Bool
  removed : Bool
deriving DecidableEq

/-- DockerService.removeContainer: stop the container only when it is
    running, then remove it. -/
def removeContainer (c : ContainerState) : ContainerState :=
  let c1 := if c.running then { c with running := false } else c
  { c1 with removed := true }

/-- Result record of ImplementationService.implementSolution. -/
structure ImplementationResult where
  pullRequestUrl : String
  commentUrl : String
deriving DecidableEq

/-- Scripted interactive responses delivered through
    `context.requestUserInput` during one run of the resolve tool: the
    first approval choice, the free-text modification patch, and the
    second approval choice for the updated plan. -/
structure UserScript where
  firstApproval : String
  modificationsText : String
  secondApproval : String

/-- Outcomes of the external collaborators during one run of the resolve
    tool, each as the value returned or the error message thrown. -/
structure RunConfig where
  issueInfoResult : Except String IssueInfo
  script : UserScript
  setupResult : Except String Unit
  implementResult : Except String ImplementationResult
  commentResult : Except String String

/-- Observable outcome of one run of the resolve tool, with invocation
    counters for the effects the session-lifecycle claims quantify over.
    `teardownCalls` counts invocations of DockerService.removeContainer:
    the body of `resolveGitHubIssueTool.execute` contains no call site of
    it, on any branch, so no branch of `executeResolve` increments it. -/
structure ExecOutcome where
  success : Bool
  error : String
  finalPlan : Option ResolutionPlan
  setupCalls : Nat
  provisioned : Bool
  teardownCalls : Nat
  modifyRounds : Nat
deriving DecidableEq

/-- Continuation of `executeResolve` after a plan has been approved: the
    environment setup, the implementation, and the issue comment run in
    order inside the surrounding try/catch, each thrown error becoming the
    failure result of the tool. -/
def afterApproval (cfg : RunConfig) (approvedPlan : ResolutionPlan)
    (rounds : Nat) : ExecOutcome :=
  match cfg.setupResult with
  | .error e =>
    { success := false, error := e, finalPlan := none, setupCalls := 1
      provisioned := false, teardownCalls := 0, modifyRounds := rounds }
  | .ok _ =>
    match cfg.implementResult with
    | .error e =>
      { success := false, error := e, finalPlan := none, setupCalls := 1
        provisioned := true, teardownCalls := 0, modifyRounds := rounds }
    | .ok _result =>
      match cfg.commentResult with
      | .error e =>
        { success := false, error := e, finalPlan := none, setupCalls := 1
          provisioned := true, teardownCalls := 0, modifyRounds := rounds }
      | .ok _comment =>
        { success := true, error := "", finalPlan := some approvedPlan
          setupCalls := 1, provisioned := true, teardownCalls := 0
          modifyRounds := rounds }

/-- The `resolveGitHubIssueTool.execute` workflow: fetch the issue, create
    a plan, run the approval dialogue (Approve proceeds; Modify applies one
    patch and asks once more with only Approve and Reject offered, any
    other second answer throwing the updated-plan rejection; any other
    first answer throwing the plan rejection), then provision, implement
    and comment. The surrounding try/catch turns every thrown error into a
    failure result. -/
def executeResolve (cfg : RunConfig) : ExecOutcome :=
  match cfg.issueInfoResult with
  | .error e =>
    { success := false, error := e, finalPlan := none, setupCalls := 0
      provisioned := false, teardownCalls := 0, modifyRounds := 0 }
  | .ok issueInfo =>
    let plan := createResolutionPlan issueInfo
    if cfg.script.firstApproval == "Approve" then
      afterApproval cfg plan 0
    else if cfg.script.firstApproval == "Modify" then
      let approvedPlan :=
        updatePlanWithModifications plan cfg.script.modificationsText
      if cfg.script.secondApproval == "Approve" then
        afterApproval cfg approvedPlan 1
      else
        { success := false, error := "Updated plan rejected by user"
          finalPlan := none, setupCalls := 0, provisioned := false
          teardownCalls := 0, modifyRounds := 1 }
    else
      { success := false, error := "Plan rejected by user", finalPlan := none
        setupCalls := 0, provisioned := false, teardownCalls := 0
        modifyRounds := 0 }

/-- Relevance of one file node as the code computes it: a `file` node whose
    name test or (failing that) content test succeeds; exactly the
    condition under which the `searchFiles` loop pushes the node. -/
def fileRelevant (issueWords : String) (f : FileNode) : Bool :=
  f.type == "file" &&
    (fileNameRelevant issueWords f || fileContentMatches issueWords f.content)

/-- Modelled from the spec: the relevance test as the specification words
    it, for comparison against `fileRelevant` — (a) some dot-separated
    filename token is an exact match of a whitespace-separated lowercased
    token of the issue title+body, else (b) some issue word longer than 4
    characters occurs as a substring of the captured content. -/
def specFileRelevant (issueWords : String) (f : FileNode) : Bool :=
  ((splitOnChar '.' (strToLower f.name).toList).any fun part =>
    (splitOnChar ' ' issueWords.toList).contains part) ||
    match f.content with
    | some content =>
      (splitOnChar ' ' issueWords.toList).any fun word =>
        word.length > 4 && listContainsSub (strToLower content).toList word
    | none => false

/-- Modelled from the spec: the line cleanup as claimed — a leading bullet
    prefix or a leading ordinal-number prefix is stripped, for either
    list-valued field. -/
def specStripEither (l : List Char) : List Char :=
  stripOrdinal (stripBullet l)

mutual
/-- Pre-order flattening of one node: the node itself, then its descendant
    nodes, in the visit order of the `searchFiles` loop. -/
def flattenNode : FileNode → List FileNode
  | .mk ty p n cont ch => FileNode.mk ty p n cont ch :: flattenList ch
termination_by structural f => f

/-- Pre-order flattening of a node list. -/
def flattenList : List FileNode → List FileNode
  | [] => []
  | f :: rest => flattenNode f ++ flattenList rest
termination_by structural fs => fs
end

/-- Minimal issue snapshot used by concrete workflow runs. -/
def sampleIssueInfo : IssueInfo :=
  { owner := "octo", repo := "demo", issueNumber := 5, title := "Fix crash"
    body := "the app crashes on start", repoLanguage := "TypeScript"
    codebaseAnalysis :=
      { fileStructure := [], buildSystem := "npm", mainLanguage := "TypeScript" } }

/-- Concrete plan used by witnesses and counterexamples. -/
def samplePlan : ResolutionPlan :=
  { problemSummary := "summary", proposedSolution := "solution"
    filesToModify := ["src/x.ts"], implementationSteps := ["step"]
    testingStrategy := "tests", successCriteria := "done" }

/-- Fully successful run: issue fetched, plan approved at once, all
    external stages succeed. -/
def happyCfg : RunConfig :=
  { issueInfoResult := Except.ok sampleIssueInfo
    script := { firstApproval := "Approve", modificationsText := ""
                secondApproval := "" }
    setupResult := Except.ok ()
    implementResult := Except.ok { pullRequestUrl := "pr", commentUrl := "c" }
    commentResult := Except.ok "comment-url" }

/-- Run that provisions successfully and then fails in the implementation
    stage. -/
def implFailCfg : RunConfig :=
  { issueInfoResult := Except.ok sampleIssueInfo
    script := { firstApproval := "Approve", modificationsText := ""
                secondApproval := "" }
    setupResult := Except.ok ()
    implementResult := Except.error "Failed to implement solution: step error"
    commentResult := Except.ok "comment-url" }

/-- Run whose first approval answer is Reject. -/
def rejectCfg : RunConfig :=
  { issueInfoResult := Except.ok sampleIssueInfo
    script := { firstApproval := "Reject", modificationsText := ""
                secondApproval := "" }
    setupResult := Except.ok ()
    implementResult := Except.ok { pullRequestUrl := "pr", commentUrl := "c" }
    commentResult := Except.ok "comment-url" }

/-- Run that answers Modify, supplies a patch, then rejects the updated
    plan. -/
def modifyRejectCfg : RunConfig :=
  { issueInfoResult := Except.ok sampleIssueInfo
    script := { firstApproval := "Modify"
                modificationsText := "Problem Summary:\nbetter summary"
                secondApproval := "Reject" }
    setupResult := Except.ok ()
    implementResult := Except.ok { pullRequestUrl := "pr", commentUrl := "c" }
    commentResult := Except.ok "comment-url" }

/-- Issue whose text is relevant to a file only through substring overlap:
    the token og of og.ts occurs inside the word login. -/
def c3IssueA : IssueInfo :=
  { owner := "o", repo := "r", issueNumber := 7, title := "login bug"
    body := "", repoLanguage := "TypeScript"
    codebaseAnalysis :=
      { fileStructure := [FileNode.mk "file" "src/og.ts" "og.ts" none []]
        buildSystem := "unknown", mainLanguage := "TypeScript" } }

/-- Issue whose text matches nothing, over a tree holding one root index
    file, so only the fallback selects a file. -/
def c3IssueB : IssueInfo :=
  { owner := "o", repo := "r", issueNumber := 8, title := "zzz"
    body := "", repoLanguage := "TypeScript"
    codebaseAnalysis :=
      { fileStructure := [FileNode.mk "file" "src/index.ts" "index.ts" none []]
        buildSystem := "unknown", mainLanguage := "TypeScript" } }

/-- Tree whose only root entry is a directory holding a nested manifest. -/
def nestedManifestFs : List FileNode :=
  [FileNode.mk "dir" "pkg" "pkg" none
    [FileNode.mk "file" "pkg/package.json" "package.json" none []]]

/-- Root-level manifest fixture for npm detection. -/
def pkgFs : List FileNode :=
  [FileNode.mk "file" "package.json" "package.json" none []]

/-- Root-level manifest fixture for pip detection. -/
def reqFs : List FileNode :=
  [FileNode.mk "file" "requirements.txt" "requirements.txt" none []]

/-- Root-level fixture with no recognized manifest. -/
def unrecFs : List FileNode :=
  [FileNode.mk "file" "main.rs" "main.rs" none []]

theorem afterApproval_counts (cfg : RunConfig) (plan : ResolutionPlan)
    (r : Nat) :
    (afterApproval cfg plan r).teardownCalls = 0 ∧
    (afterApproval cfg plan r).modifyRounds = r ∧
    (afterApproval cfg plan r).setupCalls = 1 := by
  rcases hs : cfg.setupResult with e | u <;>
    rcases hi : cfg.implementResult with e2 | r2 <;>
    rcases hc : cfg.commentResult with e3 | c3 <;>
    simp [afterApproval, hs, hi, hc]

theorem modifyRounds_le_one (cfg : RunConfig) :
    (executeResolve cfg).modifyRounds ≤ 1 := by
  rcases hI : cfg.issueInfoResult with e | info
  · simp [executeResolve, hI]
  · simp only [executeResolve, hI]
    split
    · rw [(afterApproval_counts cfg _ 0).2.1]; omega
    · split
      · split
        · rw [(afterApproval_counts cfg _ 1).2.1]
        · simp
      · simp

/-- C7: for every issue input, `createResolutionPlan` returns a plan whose
    `implementationSteps` is exactly the fixed six-entry canonical sequence
    (understand, branch, implement, test, verify, publish), independent of
    the issue text. -/
theorem c7_fixed_implementation_steps (info : IssueInfo) :
    (createResolutionPlan info).implementationSteps =
      ["Understand the issue by analyzing the code",
       "Create a branch for the fix",
       "Implement necessary changes",
       "Add or update tests",
       "Verify the fix resolves the issue",
       "Create a pull request"] := rfl

/-- C9: the working branch name is derived deterministically from the
    issue number and the slug of the issue title; in particular the title
    Fix login bug!! with issue 42 yields fix/issue-42-fix-login-bug, its
    slug being lowercased with punctuation runs collapsed and no leading or
    trailing hyphen. -/
theorem c9_branch_name_slug :
    branchNameFor 42 "Fix login bug!!" = "fix/issue-42-fix-login-bug" ∧
    slugify "Fix login bug!!" = "fix-login-bug" ∧
    (∀ (n : Nat) (title : String),
      branchNameFor n title = "fix/issue-" ++ toString n ++ "-" ++ slugify title) :=
  ⟨by decide, by decide, fun n title => rfl⟩

/-- C5: applying a modification patch that contains none of the six
    recognized section headers returns the input plan unchanged, and this
    is an ordinary (non-error) result. -/
theorem c5_noop_patch_identity (plan : ResolutionPlan) (mods : String)
    (h1 : strIncludes mods "Problem Summary:" = false)
    (h2 : strIncludes mods "Proposed Solution:" = false)
    (h3 : strIncludes mods "Files to Modify:" = false)
    (h4 : strIncludes mods "Implementation Steps:" = false)
    (h5 : strIncludes mods "Testing Strategy:" = false)
    (h6 : strIncludes mods "Success Criteria:" = false) :
    updatePlanWithModifications plan mods = plan := by
  simp [updatePlanWithModifications, applyProblemSummaryMod,
    applyProposedSolutionMod, applyFilesMod, applyStepsMod, applyTestingMod,
    applySuccessMod, h1, h2, h3, h4, h5, h6]

/-- Witness for C5 at a concrete header-free patch. -/
theorem c5_noop_patch_identity_witness :
    strIncludes "please reconsider the approach" "Problem Summary:" = false ∧
    updatePlanWithModifications samplePlan "please reconsider the approach" =
      samplePlan :=
  ⟨by decide,
    c5_noop_patch_identity samplePlan "please reconsider the approach"
      (by decide) (by decide) (by decide) (by decide) (by decide) (by decide)⟩

/-- C6: when the issue was fetched and the first approval answer is
    Reject, the run terminates as a failure carrying the rejected-by-user
    error and the environment setup is never invoked. -/
theorem c6_reject_terminal_no_provisioning (cfg : RunConfig)
    (info : IssueInfo) (hok : cfg.issueInfoResult = Except.ok info)
    (hresp : cfg.script.firstApproval = "Reject") :
    (executeResolve cfg).success = false ∧
    (executeResolve cfg).error = "Plan rejected by user" ∧
    (executeResolve cfg).setupCalls = 0 ∧
    (executeResolve cfg).provisioned = false := by
  simp [executeResolve, hok, hresp]

/-- Witness for C6 at a concrete rejecting run. -/
theorem c6_reject_terminal_no_provisioning_witness :
    (executeResolve rejectCfg).success = false ∧
    (executeResolve rejectCfg).error = "Plan rejected by user" ∧
    (executeResolve rejectCfg).setupCalls = 0 ∧
    (executeResolve rejectCfg).provisioned = false :=
  c6_reject_terminal_no_provisioning rejectCfg sampleIssueInfo rfl rfl

/-- Counterexample for C1: a fully successful run provisions the
    environment yet terminates with zero invocations of
    DockerService.removeContainer, not exactly one; an implementation-stage
    failure after provisioning likewise tears nothing down. -/
theorem c1_counterexample :
    (executeResolve happyCfg).provisioned = true ∧
    (executeResolve happyCfg).success = true ∧
    ¬ (executeResolve happyCfg).teardownCalls = 1 ∧
    (executeResolve implFailCfg).provisioned = true ∧
    (executeResolve implFailCfg).success = false ∧
    ¬ (executeResolve implFailCfg).teardownCalls = 1 := by decide

/-- C1 amended: environment teardown is never invoked by the resolve
    workflow — DockerService.removeContainer has no call site in
    resolveGitHubIssueTool.execute, so every run terminates with zero
    teardown invocations on every exit path. -/
theorem c1_teardown_never_invoked (cfg : RunConfig) :
    (executeResolve cfg).teardownCalls = 0 := by
  rcases hI : cfg.issueInfoResult with e | info
  · simp [executeResolve, hI]
  · simp only [executeResolve, hI]
    split
    · exact (afterApproval_counts cfg _ 0).1
    · split
      · split
        · exact (afterApproval_counts cfg _ 1).1
        · rfl
      · rfl

/-- Counterexample for C2: it is not the case that every number of modify
    rounds is realized by some run — no run performs two plan updates. -/
theorem c2_counterexample :
    ¬ ∀ n : Nat, ∃ cfg : RunConfig, (executeResolve cfg).modifyRounds = n := by
  intro h
  obtain ⟨cfg, hcfg⟩ := h 2
  have hle := modifyRounds_le_one cfg
  omega

/-- C2 amended: the modify loop runs at most once — a Modify answer
    triggers exactly one plan update, after which the confirmatory request
    offers only Approve and Reject, and any non-Approve second answer is a
    terminal rejection of the updated plan. -/
theorem c2_modify_at_most_one_round (cfg : RunConfig) :
    (executeResolve cfg).modifyRounds ≤ 1 ∧
    (∀ info : IssueInfo, cfg.issueInfoResult = Except.ok info →
      cfg.script.firstApproval = "Modify" →
      ((executeResolve cfg).modifyRounds = 1 ∧
        (cfg.script.secondApproval ≠ "Approve" →
          (executeResolve cfg).success = false ∧
          (executeResolve cfg).error = "Updated plan rejected by user"))) := by
  refine ⟨modifyRounds_le_one cfg, ?_⟩
  intro info hok hmod
  simp only [executeResolve, hok, hmod]
  norm_num
  by_cases hsec : cfg.script.secondApproval = "Approve"
  · rw [if_pos hsec]
    exact ⟨(afterApproval_counts cfg _ 1).2.1, fun hne => absurd hsec hne⟩
  · rw [if_neg hsec]
    exact ⟨rfl, fun _ => ⟨rfl, rfl⟩⟩

/-- Witness for C2 at a run that modifies once and then rejects. -/
theorem c2_modify_at_most_one_round_witness :
    (executeResolve modifyRejectCfg).modifyRounds ≤ 1 ∧
    (executeResolve modifyRejectCfg).modifyRounds = 1 ∧
    (executeResolve modifyRejectCfg).success = false ∧
    (executeResolve modifyRejectCfg).error = "Updated plan rejected by user" :=
  ⟨(c2_modify_at_most_one_round modifyRejectCfg).1,
   ((c2_modify_at_most_one_round modifyRejectCfg).2 sampleIssueInfo rfl rfl).1,
   (((c2_modify_at_most_one_round modifyRejectCfg).2 sampleIssueInfo rfl rfl).2
     (by decide)).1,
   (((c2_modify_at_most_one_round modifyRejectCfg).2 sampleIssueInfo rfl rfl).2
     (by decide)).2⟩

theorem detectBuildSystem_eq (fs : List FileNode) :
    detectBuildSystem fs =
      if hasManifest fs "package.json" then "npm"
      else if hasManifest fs "yarn.lock" then "yarn"
      else if hasManifest fs "pom.xml" then "maven"
      else if hasManifest fs "build.gradle" then "gradle"
      else if hasManifest fs "requirements.txt" || hasManifest fs "setup.py" then "pip"
      else if hasManifest fs "cargo.toml" then "cargo"
      else if hasManifest fs "gemfile" then "bundler"
      else "unknown" := rfl

theorem detect_unknown_of_no_manifest (fs : List FileNode)
    (h : ∀ m ∈ recognizedManifests, hasManifest fs m = false) :
    detectBuildSystem fs = "unknown" := by
  have h1 := h "package.json" (by simp [recognizedManifests])
  have h2 := h "yarn.lock" (by simp [recognizedManifests])
  have h3 := h "pom.xml" (by simp [recognizedManifests])
  have h4 := h "build.gradle" (by simp [recognizedManifests])
  have h5 := h "requirements.txt" (by simp [recognizedManifests])
  have h6 := h "setup.py" (by simp [recognizedManifests])
  have h7 := h "cargo.toml" (by simp [recognizedManifests])
  have h8 := h "gemfile" (by simp [recognizedManifests])
  rw [detectBuildSystem_eq]
  simp [h1, h2, h3, h4, h5, h6, h7, h8]

/-- C8: build-system detection is a pure function of the captured
    file-name set resolved by a fixed first-match priority order — any set
    containing package.json yields npm; a set containing requirements.txt
    with no higher-priority manifest yields pip; the empty set, and any set
    with no recognized manifest, yields unknown; and the result depends
    only on name membership. -/
theorem c8_build_system_detection :
    (∀ fs : List FileNode, hasManifest fs "package.json" = true →
      detectBuildSystem fs = "npm") ∧
    (∀ fs : List FileNode, hasManifest fs "requirements.txt" = true →
      hasManifest fs "package.json" = false →
      hasManifest fs "yarn.lock" = false →
      hasManifest fs "pom.xml" = false →
      hasManifest fs "build.gradle" = false →
      detectBuildSystem fs = "pip") ∧
    detectBuildSystem [] = "unknown" ∧
    (∀ fs : List FileNode,
      (∀ m ∈ recognizedManifests, hasManifest fs m = false) →
      detectBuildSystem fs = "unknown") ∧
    (∀ fs1 fs2 : List FileNode,
      (∀ s : String, hasManifest fs1 s = hasManifest fs2 s) →
      detectBuildSystem fs1 = detectBuildSystem fs2) := by
  refine ⟨?_, ?_, rfl, detect_unknown_of_no_manifest, ?_⟩
  · intro fs h
    rw [detectBuildSystem_eq]
    simp [h]
  · intro fs h h1 h2 h3 h4
    rw [detectBuildSystem_eq]
    simp [h, h1, h2, h3, h4]
  · intro fs1 fs2 h
    rw [detectBuildSystem_eq, detectBuildSystem_eq, h "package.json",
      h "yarn.lock", h "pom.xml", h "build.gradle", h "requirements.txt",
      h "setup.py", h "cargo.toml", h "gemfile"]

/-- Witness for C8 at concrete manifest sets. -/
theorem c8_build_system_detection_witness :
    detectBuildSystem pkgFs = "npm" ∧
    detectBuildSystem reqFs = "pip" ∧
    detectBuildSystem [] = "unknown" ∧
    detectBuildSystem unrecFs = "unknown" ∧
    detectBuildSystem pkgFs = detectBuildSystem pkgFs :=
  ⟨c8_build_system_detection.1 pkgFs (by decide),
   c8_build_system_detection.2.1 reqFs (by decide) (by decide) (by decide)
     (by decide) (by decide),
   c8_build_system_detection.2.2.1,
   c8_build_system_detection.2.2.2.1 unrecFs (by decide),
   c8_build_system_detection.2.2.2.2 pkgFs pkgFs (fun s => rfl)⟩

/-- C10: detection reads only root-level entry names — when no root-level
    name is a recognized manifest the tag is unknown even if a manifest
    exists nested below, and the unknown tag selects no install command and
    no test command (both stages skip). -/
theorem c10_root_level_only (fs : List FileNode)
    (h : ∀ f ∈ fs, recognizedManifests.contains (strToLower f.name) = false) :
    detectBuildSystem fs = "unknown" ∧
    installCommandFor (detectBuildSystem fs) = none ∧
    testCommandFor (detectBuildSystem fs) = none := by
  have hm : ∀ m ∈ recognizedManifests, hasManifest fs m = false := by
    intro m hmem
    unfold hasManifest
    rw [Bool.eq_false_iff]
    intro hc
    rw [List.contains_eq_any_beq] at hc
    simp only [List.any_eq_true, List.mem_map] at hc
    obtain ⟨x, ⟨f, hf, hfx⟩, hxm⟩ := hc
    have hfm : strToLower f.name = m := by rw [hfx, ← eq_of_beq hxm]
    have hcontr := h f hf
    rw [hfm, Bool.eq_false_iff] at hcontr
    apply hcontr
    rw [List.contains_eq_any_beq]
    simp only [List.any_eq_true]
    exact ⟨m, hmem, by simp⟩
  have hu := detect_unknown_of_no_manifest fs hm
  exact ⟨hu, by rw [hu]; rfl, by rw [hu]; rfl⟩

/-- Witness for C10 at a tree whose only manifest is nested one level
    below the root. -/
theorem c10_root_level_only_witness :
    detectBuildSystem nestedManifestFs = "unknown" ∧
    installCommandFor (detectBuildSystem nestedManifestFs) = none ∧
    testCommandFor (detectBuildSystem nestedManifestFs) = none :=
  c10_root_level_only nestedManifestFs (by decide)

theorem applyProblemSummaryMod_preserves (mods : String) (p : ResolutionPlan) :
    (applyProblemSummaryMod mods p).proposedSolution = p.proposedSolution ∧
    (applyProblemSummaryMod mods p).filesToModify = p.filesToModify ∧
    (applyProblemSummaryMod mods p).implementationSteps = p.implementationSteps ∧
    (applyProblemSummaryMod mods p).testingStrategy = p.testingStrategy ∧
    (applyProblemSummaryMod mods p).successCriteria = p.successCriteria := by
  unfold applyProblemSummaryMod
  split
  · split
    · split <;> exact ⟨rfl, rfl, rfl, rfl, rfl⟩
    · exact ⟨rfl, rfl, rfl, rfl, rfl⟩
  · exact ⟨rfl, rfl, rfl, rfl, rfl⟩

theorem applyProposedSolutionMod_preserves (mods : String) (p : ResolutionPlan) :
    (applyProposedSolutionMod mods p).problemSummary = p.problemSummary ∧
    (applyProposedSolutionMod mods p).filesToModify = p.filesToModify ∧
    (applyProposedSolutionMod mods p).implementationSteps = p.implementationSteps ∧
    (applyProposedSolutionMod mods p).testingStrategy = p.testingStrategy ∧
    (applyProposedSolutionMod mods p).successCriteria = p.successCriteria := by
  unfold applyProposedSolutionMod
  split
  · split
    · split <;> exact ⟨rfl, rfl, rfl, rfl, rfl⟩
    · exact ⟨rfl, rfl, rfl, rfl, rfl⟩
  · exact ⟨rfl, rfl, rfl, rfl, rfl⟩

theorem applyFilesMod_preserves (mods : String) (p : ResolutionPlan) :
    (applyFilesMod mods p).problemSummary = p.problemSummary ∧
    (applyFilesMod mods p).proposedSolution = p.proposedSolution ∧
    (applyFilesMod mods p).implementationSteps = p.implementationSteps ∧
    (applyFilesMod mods p).testingStrategy = p.testingStrategy ∧
    (applyFilesMod mods p).successCriteria = p.successCriteria := by
  unfold applyFilesMod
  split
  · split
    · split <;> exact ⟨rfl, rfl, rfl, rfl, rfl⟩
    · exact ⟨rfl, rfl, rfl, rfl, rfl⟩
  · exact ⟨rfl, rfl, rfl, rfl, rfl⟩

theorem applyStepsMod_preserves (mods : String) (p : ResolutionPlan) :
    (applyStepsMod mods p).problemSummary = p.problemSummary ∧
    (applyStepsMod mods p).proposedSolution = p.proposedSolution ∧
    (applyStepsMod mods p).filesToModify = p.filesToModify ∧
    (applyStepsMod mods p).testingStrategy = p.testingStrategy ∧
    (applyStepsMod mods p).successCriteria = p.successCriteria := by
  unfold applyStepsMod
  split
  · split
    · split <;> exact ⟨rfl, rfl, rfl, rfl, rfl⟩
    · exact ⟨rfl, rfl, rfl, rfl, rfl⟩
  · exact ⟨rfl, rfl, rfl, rfl, rfl⟩

theorem applyTestingMod_preserves (mods : String) (p : ResolutionPlan) :
    (applyTestingMod mods p).problemSummary = p.problemSummary ∧
    (applyTestingMod mods p).proposedSolution = p.proposedSolution ∧
    (applyTestingMod mods p).filesToModify = p.filesToModify ∧
    (applyTestingMod mods p).implementationSteps = p.implementationSteps ∧
    (applyTestingMod mods p).successCriteria = p.successCriteria := by
  unfold applyTestingMod
  split
  · split
    · split <;> exact ⟨rfl, rfl, rfl, rfl, rfl⟩
    · exact ⟨rfl, rfl, rfl, rfl, rfl⟩
  · exact ⟨rfl, rfl, rfl, rfl, rfl⟩

theorem applySuccessMod_preserves (mods : String) (p : ResolutionPlan) :
    (applySuccessMod mods p).problemSummary = p.problemSummary ∧
    (applySuccessMod mods p).proposedSolution = p.proposedSolution ∧
    (applySuccessMod mods p).filesToModify = p.filesToModify ∧
    (applySuccessMod mods p).implementationSteps = p.implementationSteps ∧
    (applySuccessMod mods p).testingStrategy = p.testingStrategy := by
  unfold applySuccessMod
  split
  · split
    · split <;> exact ⟨rfl, rfl, rfl, rfl, rfl⟩
    · exact ⟨rfl, rfl, rfl, rfl, rfl⟩
  · exact ⟨rfl, rfl, rfl, rfl, rfl⟩

/-- Counterexample for C4: an ordinal-number prefix survives a Files to
    Modify line and a bullet prefix survives an Implementation Steps line,
    while the claimed either-form stripping would remove both. -/
theorem c4_counterexample :
    (updatePlanWithModifications samplePlan
      "Files to Modify:\n1. src/a.ts\n- src/b.ts").filesToModify =
        ["1. src/a.ts", "src/b.ts"] ∧
    parseListSection specStripEither "1. src/a.ts\n- src/b.ts" =
      ["src/a.ts", "src/b.ts"] ∧
    (updatePlanWithModifications samplePlan
      "Implementation Steps:\n- do the fix").implementationSteps =
        ["- do the fix"] ∧
    parseListSection specStripEither "- do the fix" = ["do the fix"] := by
  decide

/-- C4 amended: list-valued sections are split into lines with blank lines
    dropped, but the prefix stripping is field-specific — Files to Modify
    lines lose only a leading bullet prefix (ordinal prefixes survive,
    conjunct three) and Implementation Steps lines lose only a leading
    ordinal-number prefix (bullet prefixes survive, conjunct four). -/
theorem c4_field_specific_stripping (plan : ResolutionPlan)
    (mods body : String) :
    (strIncludes mods "Files to Modify:" = true →
      sectionBody mods "Files to Modify:" "Implementation Steps:" = some body →
      trimStr body ≠ "" →
      (updatePlanWithModifications plan mods).filesToModify =
        parseListSection stripBullet (trimStr body)) ∧
    (strIncludes mods "Implementation Steps:" = true →
      sectionBody mods "Implementation Steps:" "Testing Strategy:" = some body →
      trimStr body ≠ "" →
      (updatePlanWithModifications plan mods).implementationSteps =
        parseListSection stripOrdinal (trimStr body)) ∧
    (∀ (d : Char) (cs : List Char), d.isDigit = true →
      stripBullet (d :: cs) = d :: cs) ∧
    (∀ cs : List Char, stripOrdinal ('-' :: cs) = '-' :: cs) := by
  refine ⟨?_, ?_, ?_, ?_⟩
  · intro h1 h2 h3
    unfold updatePlanWithModifications
    rw [(applySuccessMod_preserves mods _).2.2.1,
      (applyTestingMod_preserves mods _).2.2.1,
      (applyStepsMod_preserves mods _).2.2.1]
    unfold applyFilesMod
    rw [h1, h2]
    simp [h3]
  · intro h1 h2 h3
    unfold updatePlanWithModifications
    rw [(applySuccessMod_preserves mods _).2.2.2.1,
      (applyTestingMod_preserves mods _).2.2.2.1]
    unfold applyStepsMod
    rw [h1, h2]
    simp [h3]
  · intro d cs hd
    rw [stripBullet.eq_def]
    split
    · rename_i rest heq
      injection heq with h1 h2
      rw [h1] at hd
      exact absurd hd (by decide)
    · rfl
  · intro cs
    have hdig : ('-').isDigit = false := by decide
    simp [stripOrdinal, List.takeWhile_cons, hdig]

/-- Witness for C4 at the concrete mixed-prefix section bodies. -/
theorem c4_field_specific_stripping_witness :
    (updatePlanWithModifications samplePlan
      "Files to Modify:\n1. src/a.ts\n- src/b.ts").filesToModify =
        parseListSection stripBullet (trimStr "\n1. src/a.ts\n- src/b.ts") ∧
    (updatePlanWithModifications samplePlan
      "Implementation Steps:\n- do the fix").implementationSteps =
        parseListSection stripOrdinal (trimStr "\n- do the fix") ∧
    stripBullet ('1' :: "x".toList) = '1' :: "x".toList ∧
    stripOrdinal ('-' :: "y".toList) = '-' :: "y".toList :=
  ⟨(c4_field_specific_stripping samplePlan
      "Files to Modify:\n1. src/a.ts\n- src/b.ts"
      "\n1. src/a.ts\n- src/b.ts").1 (by decide) (by decide) (by decide),
   (c4_field_specific_stripping samplePlan
      "Implementation Steps:\n- do the fix"
      "\n- do the fix").2.1 (by decide) (by decide) (by decide),
   (c4_field_specific_stripping samplePlan "" "").2.2.1 '1' "x".toList (by decide),
   (c4_field_specific_stripping samplePlan "" "").2.2.2 "y".toList⟩

mutual
theorem searchNode_eq_filter (w : String) (f : FileNode) :
    searchNode w f = (flattenNode f).filter (fileRelevant w) := by
  match f with
  | .mk ty p n cont ch =>
    rw [searchNode, flattenNode, List.filter_cons, searchFiles_eq_filter w ch]
    by_cases hty : (ty == "file") = true
    · by_cases hname : fileNameRelevant w (FileNode.mk ty p n cont ch) = true
      · simp [fileRelevant, FileNode.type, FileNode.content, hty, hname]
      · by_cases hcont : fileContentMatches w cont = true
        · simp [fileRelevant, FileNode.type, FileNode.content, hty,
            Bool.eq_false_iff.mpr hname, hcont]
        · simp [fileRelevant, FileNode.type, FileNode.content, hty,
            Bool.eq_false_iff.mpr hname, Bool.eq_false_iff.mpr hcont]
    · simp [fileRelevant, FileNode.type, Bool.eq_false_iff.mpr hty]
termination_by structural f

theorem searchFiles_eq_filter (w : String) (fs : List FileNode) :
    searchFiles w fs = (flattenList fs).filter (fileRelevant w) := by
  match fs with
  | [] => rw [searchFiles, flattenList, List.filter_nil]
  | f :: rest =>
    rw [searchFiles, flattenList, List.filter_append,
      searchNode_eq_filter w f, searchFiles_eq_filter w rest]
termination_by structural fs
end

theorem if_length_pos {α : Type} (l : List α) :
    (if l.length > 0 then l else []) = l := by
  cases l <;> simp

theorem findRelevantFiles_eq (fs : List FileNode) (w : String) :
    findRelevantFiles fs w =
      (let matched := (flattenList fs).filter (fileRelevant w)
       if matched.length = 0 then
         fs.filter fun f =>
           f.type == "file" &&
             (strIncludes f.name "index" || strIncludes f.name "main" ||
               strIncludes f.name "app")
       else matched) := by
  unfold findRelevantFiles
  rw [searchFiles_eq_filter]
  simp only [if_length_pos]

/-- Counterexample for C3: a file whose dot-token og is only a substring
    of the issue word login (no exact token match, no content) still
    populates filesToModify, and a file selected purely by the index
    fallback (no token match, no content) populates it as well. -/
theorem c3_counterexample :
    (createResolutionPlan c3IssueA).filesToModify = ["src/og.ts"] ∧
    specFileRelevant (strToLower ("login bug" ++ " " ++ ""))
      (FileNode.mk "file" "src/og.ts" "og.ts" none []) = false ∧
    (createResolutionPlan c3IssueB).filesToModify = ["src/index.ts"] ∧
    specFileRelevant (strToLower ("zzz" ++ " " ++ ""))
      (FileNode.mk "file" "src/index.ts" "index.ts" none []) = false := by
  decide

/-- C3 amended: a captured file node is relevant when (a) some
    dot-separated token of its lowercased name occurs as a substring of the
    lowercased issue title+body, else (b) its captured content is nonempty
    and some space-separated issue word longer than 4 characters occurs as
    a substring of the lowercased content; the files satisfying this, in
    pre-order, populate filesToModify, except that when none matches a
    fallback selects the root-level files whose names contain index, main
    or app. -/
theorem c3_relevance_characterization (info : IssueInfo) :
    (createResolutionPlan info).filesToModify =
      (let issueWords := strToLower (info.title ++ " " ++ info.body)
       let matched := (flattenList info.codebaseAnalysis.fileStructure).filter
         (fileRelevant issueWords)
       let fallback := info.codebaseAnalysis.fileStructure.filter fun f =>
         f.type == "file" &&
           (strIncludes f.name "index" || strIncludes f.name "main" ||
             strIncludes f.name "app")
       (if matched.length = 0 then fallback else matched).map FileNode.path) := by
  show (findRelevantFiles info.codebaseAnalysis.fileStructure
    (strToLower (info.title ++ " " ++ info.body))).map FileNode.path = _
  rw [findRelevantFiles_eq]
